import Mathlib

/-!
Shallow embedding of the mototaxi-backend trip dispatch core
(src/src/controllers/trip.controller.js and
src/src/controllers/driver.controller.js, Supabase variant).

The two Supabase tables are modelled as lists inside a `DB` record; each
Express controller becomes a pure function `DB → ... → Resp × DB`.  HTTP
status codes are kept as in the source (the spec maps NotFound→404,
Conflict→409, InvalidState→400, Forbidden→403, ServiceUnavailable→503,
Internal→500 at the boundary).  The conditional trip-store write of each
operation (supabase `.update(...).eq(...)...`) is factored into an explicit
commit function so that the write can be reasoned about at a store state
different from the one the precondition reads observed, which is how the
lost-race interleavings are expressed.  Store reads never fail in the model;
the fallibility of the dependent driver-availability write (the only store
failure the claims are about) is modelled by the boolean parameter `dwOk`.
-/

namespace Mototaxi

abbrev UserId := Nat
abbrev TripId := Nat

/-- Trip states, from ESTADOS_VIAJE in trip.controller.js. -/
inductive EstadoViaje where
  | buscando
  | asignado
  | enProgreso
  | finalizado
  | cancelado
deriving DecidableEq, Repr

/-- Driver availability states, from ESTADOS_PERMITIDOS in driver.controller.js. -/
inductive EstadoConductor where
  | disponible
  | ocupado
  | offline
deriving DecidableEq, Repr

/-- String rendering of a driver state, as stored in the drivers table. -/
def estadoConductorStr : EstadoConductor → String
  | .disponible => "disponible"
  | .ocupado => "ocupado"
  | .offline => "offline"

/-- Parsing of the request-body `estado` against ESTADOS_PERMITIDOS. -/
def parseEstadoConductor (s : String) : Option EstadoConductor :=
  if s = "disponible" then some .disponible
  else if s = "ocupado" then some .ocupado
  else if s = "offline" then some .offline
  else none

/-- A row of the `trips` table. -/
structure Trip where
  id : TripId
  pasajero_id : UserId
  conductor_id : Option UserId := none
  estado : EstadoViaje
  accepted_at : Option Nat := none
  started_at : Option Nat := none
  finished_at : Option Nat := none
  cancelled_at : Option Nat := none
  cancelled_by : Option String := none
  created_at : Nat := 0
deriving DecidableEq, Repr

/-- A row of the `drivers` table. -/
structure Driver where
  user_id : UserId
  estado : EstadoConductor
deriving DecidableEq, Repr

/-- The shared store: both tables plus the id sequence for trip inserts. -/
structure DB where
  trips : List Trip
  drivers : List Driver
  nextTripId : TripId
deriving DecidableEq, Repr

def initDB : DB := { trips := [], drivers := [], nextTripId := 0 }

/-- An HTTP response as shaped by the controllers: status code, message,
optional trip payload (`data`), optional suggested-driver hint
(`conductorSugerido`). -/
structure Resp where
  status : Nat
  message : String := ""
  data : Option Trip := none
  hint : Option UserId := none
deriving DecidableEq, Repr

/-- The `estadosActivos` filter of requestTrip: trips of this passenger in
buscando, asignado or en_progreso. -/
def activoPasajero (p : UserId) (t : Trip) : Bool :=
  t.pasajero_id == p &&
    (t.estado == EstadoViaje.buscando || t.estado == EstadoViaje.asignado ||
      t.estado == EstadoViaje.enProgreso)

/-- The `estadosActivosConductor` filter of acceptTrip: trips held by this
driver in asignado or en_progreso. -/
def activeFor (d : UserId) (t : Trip) : Bool :=
  t.conductor_id == some d &&
    (t.estado == EstadoViaje.asignado || t.estado == EstadoViaje.enProgreso)

/-- Row filter of the store write of acceptTrip:
`.eq("id", tripId).eq("estado", "buscando")`. -/
def acceptFilter (tripId : TripId) (t : Trip) : Bool :=
  t.id == tripId && t.estado == EstadoViaje.buscando

/-- Row filter of the store write of finishTrip:
`.eq("id", tripId).eq("estado", "en_progreso")`. -/
def finishFilter (tripId : TripId) (t : Trip) : Bool :=
  t.id == tripId && t.estado == EstadoViaje.enProgreso

/-- Row filter of the store write of startTrip: `.eq("id", tripId)` only. -/
def startFilter (tripId : TripId) (t : Trip) : Bool :=
  t.id == tripId

/-- Row filter of the store write of cancelTrip: `.eq("id", tripId)` only. -/
def cancelFilter (tripId : TripId) (t : Trip) : Bool :=
  t.id == tripId

/-- The conditional update primitive of the store (spec section 6):
apply `patch` to the rows matching `pred`; the first component is the row
returned by `.select().single()` (`none` when zero rows were affected). -/
def condUpdate (trips : List Trip) (pred : Trip → Bool) (patch : Trip → Trip) :
    Option Trip × List Trip :=
  ((trips.find? pred).map patch,
   trips.map (fun t => if pred t then patch t else t))

/-- `supabase.from("drivers").update(\x7b estado \x7d).eq("user_id", uid)`. -/
def setDriverEstado (drivers : List Driver) (uid : UserId) (e : EstadoConductor) :
    List Driver :=
  drivers.map (fun d => if d.user_id == uid then { d with estado := e } else d)

def lostRaceMsg : String := "El viaje ya no está disponible (estado cambió)"

/-- Patch applied by the write of acceptTrip. -/
def acceptPatch (conductorId : UserId) (now : Nat) (t : Trip) : Trip :=
  { t with conductor_id := some conductorId, estado := EstadoViaje.asignado,
           accepted_at := some now }

/-- Commit phase of acceptTrip (trip.controller.js lines 214-260): the
conditional write, zero-rows handling, the driver flip to ocupado, and the
response.  `dwOk = false` models a store failure of the driver write. -/
def acceptCommit (db : DB) (conductorId : UserId) (tripId : TripId) (now : Nat)
    (dwOk : Bool) : Resp × DB :=
  let r := condUpdate db.trips (acceptFilter tripId) (acceptPatch conductorId now)
  match r.1 with
  | none => ({ status := 400, message := lostRaceMsg }, db)
  | some v =>
      if dwOk then
        ({ status := 200, message := "Viaje aceptado", data := some v },
         { db with trips := r.2,
                   drivers := setDriverEstado db.drivers conductorId EstadoConductor.ocupado })
      else
        ({ status := 500, message := "Error interno" }, { db with trips := r.2 })

/-- Patch applied by the write of startTrip. -/
def startPatch (now : Nat) (t : Trip) : Trip :=
  { t with estado := EstadoViaje.enProgreso, started_at := some now }

/-- Commit phase of startTrip (trip.controller.js lines 333-362): the write is
filtered by id only; zero rows yields 404. -/
def startCommit (db : DB) (tripId : TripId) (now : Nat) : Resp × DB :=
  let r := condUpdate db.trips (startFilter tripId) (startPatch now)
  match r.1 with
  | none => ({ status := 404, message := "Viaje no encontrado" }, db)
  | some v =>
      ({ status := 200, message := "Viaje iniciado", data := some v },
       { db with trips := r.2 })

/-- Patch applied by the write of finishTrip. -/
def finishPatch (now : Nat) (t : Trip) : Trip :=
  { t with estado := EstadoViaje.finalizado, finished_at := some now }

/-- Commit phase of finishTrip (trip.controller.js lines 566-608): conditional
on en_progreso; zero rows yields 404 "Viaje no encontrado"; then the driver is
restored to disponible, a failure there yielding 500. -/
def finishCommit (db : DB) (conductorId : UserId) (tripId : TripId) (now : Nat)
    (dwOk : Bool) : Resp × DB :=
  let r := condUpdate db.trips (finishFilter tripId) (finishPatch now)
  match r.1 with
  | none => ({ status := 404, message := "Viaje no encontrado" }, db)
  | some v =>
      if dwOk then
        ({ status := 200, data := some v },
         { db with trips := r.2,
                   drivers := setDriverEstado db.drivers conductorId EstadoConductor.disponible })
      else
        ({ status := 500, message := "Error interno" }, { db with trips := r.2 })

/-- Patch applied by the write of cancelTrip. -/
def cancelPatch (cancelledBy : String) (now : Nat) (t : Trip) : Trip :=
  { t with estado := EstadoViaje.cancelado, cancelled_at := some now,
           cancelled_by := some cancelledBy }

/-- Commit phase of cancelTrip (trip.controller.js lines 724-764): the write is
filtered by id only; zero rows yields 404; then, when the read had seen an
assigned driver, that driver is restored to disponible and a failure of this
write is only logged — the response is 200 either way. -/
def cancelCommit (db : DB) (tripId : TripId) (cancelledBy : String)
    (conductorSeen : Option UserId) (now : Nat) (dwOk : Bool) : Resp × DB :=
  let r := condUpdate db.trips (cancelFilter tripId) (cancelPatch cancelledBy now)
  match r.1 with
  | none => ({ status := 404, message := "Viaje no encontrado" }, db)
  | some v =>
      match conductorSeen with
      | some cid =>
          if dwOk then
            ({ status := 200, data := some v },
             { db with trips := r.2,
                       drivers := setDriverEstado db.drivers cid EstadoConductor.disponible })
          else
            ({ status := 200, data := some v }, { db with trips := r.2 })
      | none => ({ status := 200, data := some v }, { db with trips := r.2 })

/-- requestTrip (trip.controller.js lines 9-99), after authentication. -/
def requestTrip (db : DB) (pasajeroId : UserId) (now : Nat) : Resp × DB :=
  if db.trips.filter (activoPasajero pasajeroId) ≠ [] then
    ({ status := 409, message := "Ya tienes un viaje activo" }, db)
  else
    match (db.drivers.filter (fun d => d.estado == EstadoConductor.disponible)).head? with
    | none => ({ status := 503, message := "No hay conductores disponibles" }, db)
    | some primero =>
        let nuevo : Trip :=
          { id := db.nextTripId, pasajero_id := pasajeroId,
            estado := EstadoViaje.buscando, created_at := now }
        ({ status := 201, message := "Viaje creado, buscando conductor",
           data := some nuevo, hint := some primero.user_id },
         { db with trips := db.trips ++ [nuevo], nextTripId := db.nextTripId + 1 })

/-- acceptTrip (trip.controller.js lines 106-268), after authentication: the
in-controller role check, the five precondition reads in source order, then
the commit. -/
def acceptTrip (db : DB) (conductorId : UserId) (roles : List String)
    (tripId : TripId) (now : Nat) (dwOk : Bool) : Resp × DB :=
  if roles.contains "conductor" = false then
    ({ status := 403, message := "Solo los conductores pueden aceptar viajes" }, db)
  else
    match db.drivers.find? (fun d => d.user_id == conductorId) with
    | none => ({ status := 404, message := "Conductor no encontrado en el sistema" }, db)
    | some driver =>
        if driver.estado ≠ EstadoConductor.disponible then
          ({ status := 400,
             message := "El conductor no está disponible. Estado actual: " ++
               estadoConductorStr driver.estado }, db)
        else if db.trips.filter (activeFor conductorId) ≠ [] then
          ({ status := 409, message := "Ya tienes un viaje activo. No puedes aceptar otro." }, db)
        else
          match db.trips.find? (fun t => t.id == tripId) with
          | none => ({ status := 404, message := "Viaje no encontrado" }, db)
          | some viajeActual =>
              if viajeActual.estado ≠ EstadoViaje.buscando then
                ({ status := 400,
                   message := "Transición de estado no válida. El viaje debe estar en estado \x27buscando\x27." }, db)
              else acceptCommit db conductorId tripId now dwOk

/-- startTrip (trip.controller.js lines 273-370), after authentication. -/
def startTrip (db : DB) (conductorId : UserId) (tripId : TripId) (now : Nat) :
    Resp × DB :=
  match db.trips.find? (fun t => t.id == tripId) with
  | none => ({ status := 404, message := "Viaje no encontrado" }, db)
  | some viajeActual =>
      if viajeActual.conductor_id ≠ some conductorId then
        ({ status := 403, message := "Solo el conductor asignado puede iniciar este viaje" }, db)
      else if viajeActual.estado ≠ EstadoViaje.asignado then
        ({ status := 400,
           message := "Transición de estado no válida. El viaje debe estar en estado \x27asignado\x27." }, db)
      else startCommit db tripId now

/-- finishTrip (trip.controller.js lines 506-616), after authentication. -/
def finishTrip (db : DB) (conductorId : UserId) (tripId : TripId) (now : Nat)
    (dwOk : Bool) : Resp × DB :=
  match db.trips.find? (fun t => t.id == tripId) with
  | none => ({ status := 404, message := "Viaje no encontrado" }, db)
  | some viajeActual =>
      if viajeActual.conductor_id ≠ some conductorId then
        ({ status := 403, message := "Solo el conductor asignado puede finalizar este viaje" }, db)
      else if viajeActual.estado ≠ EstadoViaje.enProgreso then
        ({ status := 400,
           message := "Transición de estado no válida. El viaje debe estar en estado \x27en_progreso\x27." }, db)
      else finishCommit db conductorId tripId now dwOk

/-- cancelTrip (trip.controller.js lines 624-772), after authentication. -/
def cancelTrip (db : DB) (userId : UserId) (roles : List String)
    (tripId : TripId) (now : Nat) (dwOk : Bool) : Resp × DB :=
  match db.trips.find? (fun t => t.id == tripId) with
  | none => ({ status := 404, message := "Viaje no encontrado" }, db)
  | some viajeActual =>
      if viajeActual.estado = EstadoViaje.finalizado then
        ({ status := 400, message := "No se puede cancelar un viaje finalizado" }, db)
      else if viajeActual.estado = EstadoViaje.cancelado then
        ({ status := 400, message := "El viaje ya está cancelado" }, db)
      else
        let esPasajero : Bool :=
          roles.contains "pasajero" && viajeActual.pasajero_id == userId
        let esConductor : Bool :=
          roles.contains "conductor" && viajeActual.conductor_id == some userId
        if esPasajero = false ∧ esConductor = false then
          ({ status := 403, message := "No tienes permisos para cancelar este viaje" }, db)
        else if viajeActual.estado = EstadoViaje.enProgreso ∧ esConductor = false then
          ({ status := 403, message := "Solo el conductor puede cancelar un viaje en progreso" }, db)
        else if esPasajero = true ∧ viajeActual.estado ≠ EstadoViaje.buscando ∧
            viajeActual.estado ≠ EstadoViaje.asignado then
          ({ status := 400, message := "Transición de estado no válida" }, db)
        else if esConductor = true ∧ viajeActual.estado ≠ EstadoViaje.asignado ∧
            viajeActual.estado ≠ EstadoViaje.enProgreso then
          ({ status := 400,
             message := "El conductor solo puede cancelar viajes en estado \x27asignado\x27 o \x27en_progreso\x27" }, db)
        else
          cancelCommit db tripId (if esPasajero then "pasajero" else "conductor")
            viajeActual.conductor_id now dwOk

/-- registerDriver (driver.controller.js lines 8-66), after authentication. -/
def registerDriver (db : DB) (userId : UserId) : Resp × DB :=
  match db.drivers.find? (fun d => d.user_id == userId) with
  | some _ =>
      ({ status := 409, message := "Ya existe un conductor registrado con ese userId" }, db)
  | none =>
      ({ status := 201, message := "Conductor registrado correctamente" },
       { db with drivers := db.drivers ++ [{ user_id := userId, estado := EstadoConductor.disponible }] })

/-- updateStatus (driver.controller.js lines 71-147), after authentication:
validates the requested state, updates the driver row, inserting it when the
update affected zero rows. -/
def updateStatus (db : DB) (userId : UserId) (estadoStr : String) : Resp × DB :=
  match parseEstadoConductor estadoStr with
  | none =>
      ({ status := 400,
         message := "Estado no válido. Valores permitidos: disponible, ocupado, offline" }, db)
  | some e =>
      if db.drivers.any (fun d => d.user_id == userId) then
        ({ status := 200, message := "Estado del conductor actualizado" },
         { db with drivers := setDriverEstado db.drivers userId e })
      else
        ({ status := 200, message := "Estado del conductor registrado" },
         { db with drivers := db.drivers ++ [{ user_id := userId, estado := e }] })

/-- One serialized commit race of acceptTrip callers against the same trip:
each caller has already passed its precondition reads (each observed the trip
in buscando) and the store serializes their conditional writes in list order.
The driver-availability writes are taken to succeed. -/
def raceAccept (db : DB) (tripId : TripId) :
    List (UserId × Nat) → List Resp × DB
  | [] => ([], db)
  | (c, now) :: rest =>
      let r := acceptCommit db c tripId now true
      let rs := raceAccept r.2 tripId rest
      (r.1 :: rs.1, rs.2)

/-- One step of the Engine: some operation executed atomically against the
store (the sequential interleaving model). -/
inductive Step : DB → DB → Prop where
  | request (db : DB) (p : UserId) (now : Nat) :
      Step db (requestTrip db p now).2
  | accept (db : DB) (c : UserId) (roles : List String) (tid : TripId)
      (now : Nat) (dw : Bool) : Step db (acceptTrip db c roles tid now dw).2
  | start (db : DB) (c : UserId) (tid : TripId) (now : Nat) :
      Step db (startTrip db c tid now).2
  | finish (db : DB) (c : UserId) (tid : TripId) (now : Nat) (dw : Bool) :
      Step db (finishTrip db c tid now dw).2
  | cancel (db : DB) (u : UserId) (roles : List String) (tid : TripId)
      (now : Nat) (dw : Bool) : Step db (cancelTrip db u roles tid now dw).2
  | register (db : DB) (u : UserId) :
      Step db (registerDriver db u).2
  | driverStatus (db : DB) (u : UserId) (s : String) :
      Step db (updateStatus db u s).2

/-- Store states reachable from the empty store through Engine operations. -/
inductive Reachable : DB → Prop where
  | init : Reachable initDB
  | step {db db'} : Reachable db → Step db db' → Reachable db'

/-- The driverId/state well-formedness of a single trip row (spec section 3). -/
def TripWF (t : Trip) : Prop :=
  (t.estado = EstadoViaje.buscando → t.conductor_id = none) ∧
  ((t.estado = EstadoViaje.asignado ∨ t.estado = EstadoViaje.enProgreso ∨
      t.estado = EstadoViaje.finalizado) → t.conductor_id ≠ none)

/-- The inductive store invariant: trip ids are pairwise distinct and below
the id sequence, every trip row is well formed, and no driver holds two trips
in asignado or en_progreso. -/
def Inv (db : DB) : Prop :=
  db.trips.Pairwise (fun a b => a.id ≠ b.id) ∧
  (∀ t ∈ db.trips, t.id < db.nextTripId) ∧
  (∀ t ∈ db.trips, TripWF t) ∧
  (∀ d : UserId, (db.trips.filter (activeFor d)).length ≤ 1)

/-! Concrete sample stores used as inputs of witnesses and counterexamples. -/

def tripSearchingW : Trip := { id := 1, pasajero_id := 2, estado := EstadoViaje.buscando }

def dbSearchingW : DB :=
  { trips := [tripSearchingW],
    drivers := [{ user_id := 5, estado := EstadoConductor.disponible },
                { user_id := 6, estado := EstadoConductor.disponible }],
    nextTripId := 2 }

def tripAssignedW : Trip :=
  { id := 1, pasajero_id := 2, conductor_id := some 5, estado := EstadoViaje.asignado }

def dbAssignedW : DB :=
  { trips := [tripAssignedW],
    drivers := [{ user_id := 5, estado := EstadoConductor.ocupado }],
    nextTripId := 2 }

def tripInProgressW : Trip :=
  { id := 1, pasajero_id := 2, conductor_id := some 5, estado := EstadoViaje.enProgreso }

def dbInProgressW : DB :=
  { trips := [tripInProgressW],
    drivers := [{ user_id := 5, estado := EstadoConductor.ocupado }],
    nextTripId := 2 }

def tripCancelledW : Trip :=
  { id := 1, pasajero_id := 2, conductor_id := some 5, estado := EstadoViaje.cancelado }

def dbCancelledW : DB :=
  { trips := [tripCancelledW],
    drivers := [{ user_id := 5, estado := EstadoConductor.ocupado }],
    nextTripId := 2 }

def dbRegW : DB := (registerDriver initDB 5).2

def dbBusyW : DB := (updateStatus dbRegW 5 "ocupado").2

def dbReqW : DB := (requestTrip dbRegW 7 0).2

def tripReqW : Trip := { id := 0, pasajero_id := 7, estado := EstadoViaje.buscando }

/-! List bookkeeping lemmas used by the invariant proofs. -/

theorem len_filter_map {α : Type} (g : α → α) (p : α → Bool) (l : List α) :
    ((l.map g).filter p).length = (l.filter (fun t => p (g t))).length := by
  induction l with
  | nil => rfl
  | cons a l ih =>
      simp only [List.map_cons, List.filter_cons]
      cases h : p (g a) <;> simp [h, ih]

theorem len_filter_mono {α : Type} {p q : α → Bool} :
    ∀ (l : List α), (∀ t ∈ l, p t = true → q t = true) →
      (l.filter p).length ≤ (l.filter q).length := by
  intro l
  induction l with
  | nil => intro _; exact Nat.le_refl 0
  | cons a l ih =>
      intro h
      simp only [List.filter_cons]
      cases hp : p a with
      | true =>
          have hq : q a = true := h a (List.mem_cons_self a l) hp
          simp only [hq, List.length_cons]
          exact Nat.succ_le_succ (ih fun t ht => h t (List.mem_cons_of_mem a ht))
      | false =>
          have step : (l.filter p).length ≤ (l.filter q).length :=
            ih fun t ht => h t (List.mem_cons_of_mem a ht)
          cases hq : q a with
          | true => exact Nat.le_trans step (Nat.le_succ _)
          | false => exact step

theorem filter_nil_of_false {α : Type} {p : α → Bool} :
    ∀ {l : List α}, (∀ t ∈ l, p t = false) → l.filter p = [] := by
  intro l
  induction l with
  | nil => intro _; rfl
  | cons a l ih =>
      intro h
      simp only [List.filter_cons, h a (List.mem_cons_self a l)]
      exact ih fun t ht => h t (List.mem_cons_of_mem a ht)

theorem false_of_filter_nil {α : Type} {p : α → Bool} :
    ∀ {l : List α}, l.filter p = [] → ∀ t ∈ l, p t = false := by
  intro l
  induction l with
  | nil => intro _ t ht; cases ht
  | cons a l ih =>
      intro h t ht
      simp only [List.filter_cons] at h
      cases hp : p a with
      | true => simp [hp] at h
      | false =>
          simp only [hp, Bool.false_eq_true, if_neg] at h
          rcases List.mem_cons.mp ht with rfl | ht'
          · exact hp
          · exact ih h t ht'

theorem len_filter_le_one {α : Type} {p : α → Bool} :
    ∀ {l : List α}, l.Pairwise (fun a b => ¬(p a = true ∧ p b = true)) →
      (l.filter p).length ≤ 1 := by
  intro l
  induction l with
  | nil => intro _; exact Nat.le_succ 0
  | cons a l ih =>
      intro h
      rcases List.pairwise_cons.mp h with ⟨ha, hl⟩
      simp only [List.filter_cons]
      cases hp : p a with
      | false => exact ih hl
      | true =>
          have hnil : l.filter p = [] := by
            refine filter_nil_of_false fun t ht => ?_
            cases hpt : p t with
            | false => rfl
            | true => exact absurd ⟨hp, hpt⟩ (ha t ht)
          simp [hnil]

theorem find_id_unique :
    ∀ {l : List Trip}, l.Pairwise (fun a b => a.id ≠ b.id) →
      ∀ {tid : TripId} {v : Trip}, l.find? (fun t => t.id == tid) = some v →
        ∀ t ∈ l, t.id = tid → t = v := by
  intro l
  induction l with
  | nil => intro _ tid v hv; cases hv
  | cons a l ih =>
      intro h tid v hv t ht htid
      rcases List.pairwise_cons.mp h with ⟨ha, hl⟩
      rw [List.find?_cons] at hv
      cases hpa : (a.id == tid : Bool) with
      | true =>
          rw [hpa] at hv
          injection hv with hv
          subst hv
          rcases List.mem_cons.mp ht with rfl | ht'
          · rfl
          · have haid : a.id = tid := by simpa using hpa
            exact absurd (haid.trans htid.symm) (ha t ht')
      | false =>
          rw [hpa] at hv
          rcases List.mem_cons.mp ht with rfl | ht'
          · exact absurd htid (by simpa using hpa)
          · exact ih hl hv t ht' htid

/-! Invariant preservation, one lemma per store-write phase. -/

theorem ids_map_pairwise (trips : List Trip) (g : Trip → Trip)
    (hid : ∀ t, (g t).id = t.id)
    (hpw : trips.Pairwise fun a b => a.id ≠ b.id) :
    (trips.map g).Pairwise (fun a b => a.id ≠ b.id) :=
  List.pairwise_map.mpr (hpw.imp fun {a b} h => by rw [hid, hid]; exact h)

theorem ids_map_bound (trips : List Trip) (g : Trip → Trip) (n : TripId)
    (hid : ∀ t, (g t).id = t.id)
    (hbound : ∀ t ∈ trips, t.id < n) :
    ∀ x ∈ trips.map g, x.id < n := by
  intro x hx
  rcases List.mem_map.mp hx with ⟨t, ht, rfl⟩
  rw [hid]
  exact hbound t ht

theorem wf_map (trips : List Trip) (g : Trip → Trip)
    (hwf : ∀ t ∈ trips, TripWF t)
    (h : ∀ t ∈ trips, TripWF t → TripWF (g t)) :
    ∀ x ∈ trips.map g, TripWF x := by
  intro x hx
  rcases List.mem_map.mp hx with ⟨t, ht, rfl⟩
  exact h t ht (hwf t ht)

theorem inv_acceptCommit (db : DB) (cid : UserId) (tid : TripId) (now : Nat)
    (dw : Bool) (hInv : Inv db)
    (hempty : db.trips.filter (activeFor cid) = []) :
    Inv (acceptCommit db cid tid now dw).2 := by
  obtain ⟨hpw, hbound, hwf, hcount⟩ := hInv
  have hid : ∀ t : Trip,
      ((if acceptFilter tid t then acceptPatch cid now t else t) : Trip).id = t.id := by
    intro t
    by_cases h : acceptFilter tid t = true <;> simp [h, acceptPatch]
  have hPW := ids_map_pairwise db.trips _ hid hpw
  have hB := ids_map_bound db.trips _ db.nextTripId hid hbound
  have hWF : ∀ x ∈ db.trips.map
      (fun t => if acceptFilter tid t then acceptPatch cid now t else t), TripWF x := by
    refine wf_map db.trips _ hwf ?_
    intro t ht hwft
    by_cases h : acceptFilter tid t = true
    · simp only [h, if_pos]
      constructor
      · intro he; simp [acceptPatch] at he
      · intro _; simp [acceptPatch]
    · simp only [h]
      simpa using hwft
  have hC : ∀ d : UserId,
      ((db.trips.map (fun t => if acceptFilter tid t then acceptPatch cid now t else t)).filter
        (activeFor d)).length ≤ 1 := by
    intro d
    rw [len_filter_map]
    by_cases hd : d = cid
    · subst hd
      have h1 : ∀ t ∈ db.trips,
          activeFor d (if acceptFilter tid t then acceptPatch d now t else t) = true →
            acceptFilter tid t = true := by
        intro t ht hact
        by_cases h : acceptFilter tid t = true
        · exact h
        · exfalso
          rw [if_neg h] at hact
          have := false_of_filter_nil hempty t ht
          rw [this] at hact
          cases hact
      have h2 : (db.trips.filter (acceptFilter tid)).length ≤ 1 := by
        refine len_filter_le_one (hpw.imp ?_)
        intro a b hne hab
        rcases hab with ⟨ha, hb⟩
        have ha' : a.id = tid := by
          simp [acceptFilter] at ha; exact ha.1
        have hb' : b.id = tid := by
          simp [acceptFilter] at hb; exact hb.1
        exact hne (ha'.trans hb'.symm)
      exact Nat.le_trans (len_filter_mono db.trips h1) h2
    · have h1 : ∀ t ∈ db.trips,
          activeFor d (if acceptFilter tid t then acceptPatch cid now t else t) = true →
            activeFor d t = true := by
        intro t ht hact
        by_cases h : acceptFilter tid t = true
        · exfalso
          rw [if_pos h] at hact
          simp [activeFor, acceptPatch] at hact
          exact hd hact.symm
        · simpa [h] using hact
      exact Nat.le_trans (len_filter_mono db.trips h1) (hcount d)
  unfold acceptCommit condUpdate
  cases hfind : (db.trips.find? (acceptFilter tid)) with
  | none => exact ⟨hpw, hbound, hwf, hcount⟩
  | some v =>
      cases dw <;> simp only [Option.map_some] <;>
        exact ⟨hPW, hB, hWF, hC⟩

theorem inv_startCommit (db : DB) (tid : TripId) (now : Nat) (hInv : Inv db)
    (hall : ∀ t ∈ db.trips, t.id = tid →
      t.estado = EstadoViaje.asignado ∧ t.conductor_id ≠ none) :
    Inv (startCommit db tid now).2 := by
  obtain ⟨hpw, hbound, hwf, hcount⟩ := hInv
  have hid : ∀ t : Trip,
      ((if startFilter tid t then startPatch now t else t) : Trip).id = t.id := by
    intro t
    by_cases h : startFilter tid t = true <;> simp [h, startPatch]
  have hPW := ids_map_pairwise db.trips _ hid hpw
  have hB := ids_map_bound db.trips _ db.nextTripId hid hbound
  have hWF : ∀ x ∈ db.trips.map
      (fun t => if startFilter tid t then startPatch now t else t), TripWF x := by
    refine wf_map db.trips _ hwf ?_
    intro t ht hwft
    by_cases h : startFilter tid t = true
    · rw [if_pos h]
      have hta := hall t ht (by simpa [startFilter] using h)
      constructor
      · intro he; simp [startPatch] at he
      · intro _
        simpa [startPatch] using hta.2
    · rw [if_neg h]; exact hwft
  have heq : ∀ (d : UserId) (t : Trip), t ∈ db.trips →
      activeFor d (if startFilter tid t then startPatch now t else t) = activeFor d t := by
    intro d t ht
    by_cases h : startFilter tid t = true
    · rw [if_pos h]
      have hta := (hall t ht (by simpa [startFilter] using h)).1
      simp [activeFor, startPatch, hta]
    · rw [if_neg h]
  have hC : ∀ d : UserId,
      ((db.trips.map (fun t => if startFilter tid t then startPatch now t else t)).filter
        (activeFor d)).length ≤ 1 := by
    intro d
    rw [len_filter_map]
    refine Nat.le_trans (len_filter_mono db.trips ?_) (hcount d)
    intro t ht hh
    rw [heq d t ht] at hh
    exact hh
  unfold startCommit condUpdate
  cases hfind : db.trips.find? (startFilter tid) with
  | none => exact ⟨hpw, hbound, hwf, hcount⟩
  | some v =>
      simp only [Option.map_some]
      exact ⟨hPW, hB, hWF, hC⟩

theorem inv_finishCommit (db : DB) (cid : UserId) (tid : TripId) (now : Nat)
    (dw : Bool) (hInv : Inv db) :
    Inv (finishCommit db cid tid now dw).2 := by
  obtain ⟨hpw, hbound, hwf, hcount⟩ := hInv
  have hid : ∀ t : Trip,
      ((if finishFilter tid t then finishPatch now t else t) : Trip).id = t.id := by
    intro t
    by_cases h : finishFilter tid t = true <;> simp [h, finishPatch]
  have hPW := ids_map_pairwise db.trips _ hid hpw
  have hB := ids_map_bound db.trips _ db.nextTripId hid hbound
  have hWF : ∀ x ∈ db.trips.map
      (fun t => if finishFilter tid t then finishPatch now t else t), TripWF x := by
    refine wf_map db.trips _ hwf ?_
    intro t ht hwft
    by_cases h : finishFilter tid t = true
    · rw [if_pos h]
      have hprog : t.estado = EstadoViaje.enProgreso := by
        simp [finishFilter] at h; exact h.2
      constructor
      · intro he; simp [finishPatch] at he
      · intro _
        simpa [finishPatch] using hwft.2 (Or.inr (Or.inl hprog))
    · rw [if_neg h]; exact hwft
  have hC : ∀ d : UserId,
      ((db.trips.map (fun t => if finishFilter tid t then finishPatch now t else t)).filter
        (activeFor d)).length ≤ 1 := by
    intro d
    rw [len_filter_map]
    refine Nat.le_trans (len_filter_mono db.trips ?_) (hcount d)
    intro t ht hh
    by_cases h : finishFilter tid t = true
    · rw [if_pos h] at hh
      simp [activeFor, finishPatch] at hh
    · rw [if_neg h] at hh
      exact hh
  unfold finishCommit condUpdate
  cases hfind : db.trips.find? (finishFilter tid) with
  | none => exact ⟨hpw, hbound, hwf, hcount⟩
  | some v =>
      cases dw <;> simp only [Option.map_some] <;>
        exact ⟨hPW, hB, hWF, hC⟩

theorem inv_cancelCommit (db : DB) (tid : TripId) (cb : String)
    (seen : Option UserId) (now : Nat) (dw : Bool) (hInv : Inv db) :
    Inv (cancelCommit db tid cb seen now dw).2 := by
  obtain ⟨hpw, hbound, hwf, hcount⟩ := hInv
  have hid : ∀ t : Trip,
      ((if cancelFilter tid t then cancelPatch cb now t else t) : Trip).id = t.id := by
    intro t
    by_cases h : cancelFilter tid t = true <;> simp [h, cancelPatch]
  have hPW := ids_map_pairwise db.trips _ hid hpw
  have hB := ids_map_bound db.trips _ db.nextTripId hid hbound
  have hWF : ∀ x ∈ db.trips.map
      (fun t => if cancelFilter tid t then cancelPatch cb now t else t), TripWF x := by
    refine wf_map db.trips _ hwf ?_
    intro t ht hwft
    by_cases h : cancelFilter tid t = true
    · rw [if_pos h]
      constructor
      · intro he; simp [cancelPatch] at he
      · intro he
        rcases he with he | he | he <;> simp [cancelPatch] at he
    · rw [if_neg h]; exact hwft
  have hC : ∀ d : UserId,
      ((db.trips.map (fun t => if cancelFilter tid t then cancelPatch cb now t else t)).filter
        (activeFor d)).length ≤ 1 := by
    intro d
    rw [len_filter_map]
    refine Nat.le_trans (len_filter_mono db.trips ?_) (hcount d)
    intro t ht hh
    by_cases h : cancelFilter tid t = true
    · rw [if_pos h] at hh
      simp [activeFor, cancelPatch] at hh
    · rw [if_neg h] at hh
      exact hh
  unfold cancelCommit condUpdate
  cases hfind : db.trips.find? (cancelFilter tid) with
  | none => exact ⟨hpw, hbound, hwf, hcount⟩
  | some v =>
      cases seen with
      | none => simp only [Option.map_some]; exact ⟨hPW, hB, hWF, hC⟩
      | some c =>
          cases dw <;> simp only [Option.map_some] <;>
            exact ⟨hPW, hB, hWF, hC⟩

theorem inv_requestTrip (db : DB) (p : UserId) (now : Nat) (hInv : Inv db) :
    Inv (requestTrip db p now).2 := by
  obtain ⟨hpw, hbound, hwf, hcount⟩ := hInv
  unfold requestTrip
  split
  · exact ⟨hpw, hbound, hwf, hcount⟩
  · split
    · exact ⟨hpw, hbound, hwf, hcount⟩
    · refine ⟨?_, ?_, ?_, ?_⟩
      · refine List.pairwise_append.mpr ⟨hpw, List.pairwise_singleton _ _, ?_⟩
        intro a ha b hb
        have hb' : b.id = db.nextTripId := by
          rcases List.mem_singleton.mp hb with rfl
          rfl
        rw [hb']
        exact Nat.ne_of_lt (hbound a ha)
      · intro t ht
        rcases List.mem_append.mp ht with ht' | ht'
        · exact Nat.lt_trans (hbound t ht') (Nat.lt_succ_self _)
        · rcases List.mem_singleton.mp ht' with rfl
          exact Nat.lt_succ_self _
      · intro t ht
        rcases List.mem_append.mp ht with ht' | ht'
        · exact hwf t ht'
        · rcases List.mem_singleton.mp ht' with rfl
          exact ⟨fun _ => rfl, fun h => by rcases h with h | h | h <;> cases h⟩
      · intro d
        rw [List.filter_append]
        have : List.filter (activeFor d)
            [({ id := db.nextTripId, pasajero_id := p,
                estado := EstadoViaje.buscando, created_at := now } : Trip)] = [] := by
          simp [activeFor]
        rw [this, List.append_nil]
        exact hcount d

theorem inv_acceptTrip (db : DB) (c : UserId) (roles : List String) (tid : TripId)
    (now : Nat) (dw : Bool) (hInv : Inv db) :
    Inv (acceptTrip db c roles tid now dw).2 := by
  unfold acceptTrip
  split
  · exact hInv
  · split
    · exact hInv
    · split
      · exact hInv
      · split
        · exact hInv
        next hempty =>
          split
          · exact hInv
          · split
            · exact hInv
            · exact inv_acceptCommit db c tid now dw hInv (not_not.mp hempty)

theorem inv_startTrip (db : DB) (c : UserId) (tid : TripId) (now : Nat)
    (hInv : Inv db) : Inv (startTrip db c tid now).2 := by
  unfold startTrip
  split
  · exact hInv
  next v hv =>
    split
    · exact hInv
    next hcond =>
      split
      · exact hInv
      next hasg =>
        refine inv_startCommit db tid now hInv ?_
        intro t ht htid
        have ht_eq : t = v := find_id_unique hInv.1 hv t ht htid
        subst ht_eq
        refine ⟨not_not.mp hasg, ?_⟩
        rw [not_not.mp hcond]
        intro hcontra
        cases hcontra

theorem inv_finishTrip (db : DB) (c : UserId) (tid : TripId) (now : Nat)
    (dw : Bool) (hInv : Inv db) : Inv (finishTrip db c tid now dw).2 := by
  unfold finishTrip
  split
  · exact hInv
  · split
    · exact hInv
    · split
      · exact hInv
      · exact inv_finishCommit db c tid now dw hInv

theorem inv_cancelTrip (db : DB) (u : UserId) (roles : List String) (tid : TripId)
    (now : Nat) (dw : Bool) (hInv : Inv db) :
    Inv (cancelTrip db u roles tid now dw).2 := by
  unfold cancelTrip
  split
  · exact hInv
  · split
    · exact hInv
    · split
      · exact hInv
      · dsimp only
        split
        · exact hInv
        · split
          · exact hInv
          · split
            · exact hInv
            · split
              · exact hInv
              · exact inv_cancelCommit db tid _ _ now dw hInv

theorem inv_registerDriver (db : DB) (u : UserId) (hInv : Inv db) :
    Inv (registerDriver db u).2 := by
  unfold registerDriver
  split
  · exact hInv
  · exact hInv

theorem inv_updateStatus (db : DB) (u : UserId) (s : String) (hInv : Inv db) :
    Inv (updateStatus db u s).2 := by
  unfold updateStatus
  split
  · exact hInv
  · split
    · exact hInv
    · exact hInv

theorem step_inv {db db' : DB} (h : Step db db') (hInv : Inv db) : Inv db' := by
  cases h with
  | request p now => exact inv_requestTrip db p now hInv
  | accept c roles tid now dw => exact inv_acceptTrip db c roles tid now dw hInv
  | start c tid now => exact inv_startTrip db c tid now hInv
  | finish c tid now dw => exact inv_finishTrip db c tid now dw hInv
  | cancel u roles tid now dw => exact inv_cancelTrip db u roles tid now dw hInv
  | register u => exact inv_registerDriver db u hInv
  | driverStatus u s => exact inv_updateStatus db u s hInv

theorem reachable_inv {db : DB} (h : Reachable db) : Inv db := by
  induction h with
  | init =>
      refine ⟨List.Pairwise.nil, ?_, ?_, ?_⟩
      · intro t ht; cases ht
      · intro t ht; cases ht
      · intro d; simp [initDB]
  | step _ hs ih => exact step_inv hs ih

/-! Lemmas on the serialized acceptance race. -/

theorem raceAccept_cons (db : DB) (tid : TripId) (c : UserId) (n : Nat)
    (rest : List (UserId × Nat)) :
    raceAccept db tid ((c, n) :: rest) =
      ((acceptCommit db c tid n true).1 ::
        (raceAccept (acceptCommit db c tid n true).2 tid rest).1,
       (raceAccept (acceptCommit db c tid n true).2 tid rest).2) := rfl

theorem acceptCommit_fail (db : DB) (c : UserId) (tid : TripId) (n : Nat)
    (dw : Bool) (h : ∀ t ∈ db.trips, acceptFilter tid t = false) :
    acceptCommit db c tid n dw = ({ status := 400, message := lostRaceMsg }, db) := by
  unfold acceptCommit condUpdate
  have hnone : db.trips.find? (acceptFilter tid) = none :=
    List.find?_eq_none.mpr fun t ht => by rw [h t ht]; exact Bool.false_ne_true
  simp [hnone]

theorem acceptCommit_success (db : DB) (c : UserId) (tid : TripId) (n : Nat)
    (v : Trip) (hfind : db.trips.find? (acceptFilter tid) = some v) :
    (acceptCommit db c tid n true).1.status = 200 ∧
      (∀ t ∈ (acceptCommit db c tid n true).2.trips, acceptFilter tid t = false) := by
  unfold acceptCommit condUpdate
  simp only [hfind, Option.map_some, if_pos]
  refine ⟨rfl, ?_⟩
  intro t ht
  rcases List.mem_map.mp ht with ⟨s, _, rfl⟩
  by_cases h : acceptFilter tid s = true
  · rw [if_pos h]
    simp [acceptFilter, acceptPatch]
  · rw [if_neg h]
    exact Bool.eq_false_iff.mpr h

theorem raceAccept_all_fail (tid : TripId) :
    ∀ (callers : List (UserId × Nat)) (db : DB),
      (∀ t ∈ db.trips, acceptFilter tid t = false) →
      (∀ r ∈ (raceAccept db tid callers).1,
        r = { status := 400, message := lostRaceMsg }) ∧
      (raceAccept db tid callers).2 = db := by
  intro callers
  induction callers with
  | nil =>
      intro db _
      refine ⟨?_, rfl⟩
      intro r hr
      cases hr
  | cons cn rest ih =>
      intro db h
      obtain ⟨c, n⟩ := cn
      rw [raceAccept_cons, acceptCommit_fail db c tid n true h]
      obtain ⟨ih1, ih2⟩ := ih db h
      refine ⟨?_, ih2⟩
      intro r hr
      rcases List.mem_cons.mp hr with rfl | hr'
      · rfl
      · exact ih1 r hr'

theorem acceptCommit_status (db : DB) (c : UserId) (tid : TripId) (n : Nat) :
    (acceptCommit db c tid n true).1.status = 200 ∨
      (acceptCommit db c tid n true).1 = { status := 400, message := lostRaceMsg } := by
  unfold acceptCommit condUpdate
  cases hfind : db.trips.find? (acceptFilter tid) with
  | none => exact Or.inr rfl
  | some v => exact Or.inl rfl

theorem raceAccept_statuses (tid : TripId) :
    ∀ (callers : List (UserId × Nat)) (db : DB),
      ∀ r ∈ (raceAccept db tid callers).1,
        r.status = 200 ∨ (r.status = 400 ∧ r.message = lostRaceMsg) := by
  intro callers
  induction callers with
  | nil => intro db r hr; cases hr
  | cons cn rest ih =>
      intro db r hr
      obtain ⟨c, n⟩ := cn
      rw [raceAccept_cons] at hr
      rcases List.mem_cons.mp hr with rfl | hr'
      · rcases acceptCommit_status db c tid n with h | h
        · exact Or.inl h
        · rw [h]; exact Or.inr ⟨rfl, rfl⟩
      · exact ih _ r hr'

/-! Claim theorems. -/

/-- Claim C1: for a Searching trip and any nonempty set of concurrent
acceptTrip calls racing it (each of which passed its precondition reads and
whose conditional store writes the store serializes in some order), exactly
one call commits the transition (observing HTTP 200); every other call
observes the InvalidState failure (HTTP 400, "trip no longer available"),
because the write is conditioned on the trip still being buscando at write
time. -/
theorem trip_C1_accept_race (db : DB) (tid : TripId)
    (callers : List (UserId × Nat))
    (hv : ∃ t ∈ db.trips, t.id = tid ∧ t.estado = EstadoViaje.buscando)
    (hne : callers ≠ []) :
    (((raceAccept db tid callers).1.filter (fun r => r.status == 200)).length = 1) ∧
    (∀ r ∈ (raceAccept db tid callers).1,
      r.status = 200 ∨ (r.status = 400 ∧ r.message = lostRaceMsg)) := by
  refine ⟨?_, raceAccept_statuses tid callers db⟩
  cases callers with
  | nil => exact absurd rfl hne
  | cons cn rest =>
      obtain ⟨c, n⟩ := cn
      obtain ⟨t, ht, htid, hbus⟩ := hv
      have hsome : (db.trips.find? (acceptFilter tid)).isSome := by
        rw [List.find?_isSome]
        exact ⟨t, ht, by simp [acceptFilter, htid, hbus]⟩
      obtain ⟨v, hfind⟩ := Option.isSome_iff_exists.mp hsome
      obtain ⟨h200, hafter⟩ := acceptCommit_success db c tid n v hfind
      obtain ⟨hall, _⟩ :=
        raceAccept_all_fail tid rest (acceptCommit db c tid n true).2 hafter
      rw [raceAccept_cons]
      simp only [List.filter_cons]
      have hfail : ((raceAccept (acceptCommit db c tid n true).2 tid rest).1.filter
          (fun r => r.status == 200)) = [] := by
        refine filter_nil_of_false ?_
        intro r hr
        rw [hall r hr]
        rfl
      rw [h200]
      simp [hfail]

/-- Witness for C1: two drivers race the Searching trip of `dbSearchingW`;
exactly one acceptance succeeds. -/
theorem trip_C1_witness :
    ((raceAccept dbSearchingW 1 [(5, 0), (6, 0)]).1.filter
      (fun r => r.status == 200)).length = 1 :=
  (trip_C1_accept_race dbSearchingW 1 [(5, 0), (6, 0)]
    ⟨tripSearchingW, by decide, by decide⟩ (by decide)).1

/-- Claim C2: in every store state reachable through the operations of the Engine,
the conductor_id of a trip is absent while the trip is buscando (Searching) and
present whenever the trip is asignado, en_progreso or finalizado (Assigned,
InProgress, Finished) — hence also in any cancelado state entered after
assignment, the cancellation write never clearing conductor_id; every
operation preserves this invariant. -/
theorem trip_C2_driverId_iff_state (db : DB) (h : Reachable db) :
    ∀ t ∈ db.trips,
      (t.estado = EstadoViaje.buscando → t.conductor_id = none) ∧
      ((t.estado = EstadoViaje.asignado ∨ t.estado = EstadoViaje.enProgreso ∨
          t.estado = EstadoViaje.finalizado) → t.conductor_id ≠ none) :=
  (reachable_inv h).2.2.1

/-- Witness for C2: the trip created by requestTrip in a concrete reachable
store carries no conductor_id while buscando. -/
theorem trip_C2_witness :
    (tripReqW.estado = EstadoViaje.buscando → tripReqW.conductor_id = none) ∧
    ((tripReqW.estado = EstadoViaje.asignado ∨ tripReqW.estado = EstadoViaje.enProgreso ∨
        tripReqW.estado = EstadoViaje.finalizado) → tripReqW.conductor_id ≠ none) :=
  trip_C2_driverId_iff_state dbReqW
    (Reachable.step (Reachable.step Reachable.init (Step.register initDB 5))
      (Step.request dbRegW 7 0))
    tripReqW (by decide)

/-- Counterexample to C3: updateStatus writes any requested availability
without consulting the trips table, so from the empty store a registered
driver can set itself ocupado (Busy) while holding zero trips in asignado or
en_progreso — refuting the claimed Busy-iff-exactly-one-active-trip
invariant in a reachable state. -/
theorem trip_C3_cex :
    Reachable dbBusyW ∧
    ∃ d ∈ dbBusyW.drivers, d.estado = EstadoConductor.ocupado ∧
      (dbBusyW.trips.filter (activeFor d.user_id)).length = 0 :=
  ⟨Reachable.step (Reachable.step Reachable.init (Step.register initDB 5))
      (Step.driverStatus dbRegW 5 "ocupado"),
   by decide⟩

/-- Claim C3 as amended: in every reachable store state no driver holds two
trips in asignado or en_progreso simultaneously (acceptTrip refuses a driver
with an active trip and is the only operation that assigns one); the
Busy-direction of the claimed iff does not survive the driver-status update
operation, which sets availability freely. -/
theorem trip_C3_amended (db : DB) (h : Reachable db) (d : UserId) :
    (db.trips.filter (activeFor d)).length ≤ 1 :=
  (reachable_inv h).2.2.2 d

/-- Witness for C3 (amended): evaluated in a concrete reachable store. -/
theorem trip_C3_amended_witness :
    (dbBusyW.trips.filter (activeFor 5)).length ≤ 1 :=
  trip_C3_amended dbBusyW
    (Reachable.step (Reachable.step Reachable.init (Step.register initDB 5))
      (Step.driverStatus dbRegW 5 "ocupado"))
    5

/-- Claim C4: acceptTrip checks its five preconditions in source order, each
with its distinct failure: absent driver record → 404 NotFound; driver not
disponible → 400 InvalidState with the actual availability in the message;
driver already holding an asignado/en_progreso trip → 409 Conflict; absent
target trip → 404 NotFound; target trip not buscando → 400 InvalidState.
Each case is stated for an arbitrary store, so an earlier failure yields its
response whatever the later checks would have found. -/
theorem trip_C4_accept_check_order (db : DB) (c : UserId) (roles : List String)
    (tid : TripId) (now : Nat) (dw : Bool)
    (hrole : roles.contains "conductor" = true) :
    (db.drivers.find? (fun d => d.user_id == c) = none →
      acceptTrip db c roles tid now dw =
        ({ status := 404, message := "Conductor no encontrado en el sistema" }, db)) ∧
    (∀ driver, db.drivers.find? (fun d => d.user_id == c) = some driver →
      driver.estado ≠ EstadoConductor.disponible →
      acceptTrip db c roles tid now dw =
        ({ status := 400,
           message := "El conductor no está disponible. Estado actual: " ++
             estadoConductorStr driver.estado }, db)) ∧
    (∀ driver, db.drivers.find? (fun d => d.user_id == c) = some driver →
      driver.estado = EstadoConductor.disponible →
      db.trips.filter (activeFor c) ≠ [] →
      acceptTrip db c roles tid now dw =
        ({ status := 409, message := "Ya tienes un viaje activo. No puedes aceptar otro." }, db)) ∧
    (∀ driver, db.drivers.find? (fun d => d.user_id == c) = some driver →
      driver.estado = EstadoConductor.disponible →
      db.trips.filter (activeFor c) = [] →
      db.trips.find? (fun t => t.id == tid) = none →
      acceptTrip db c roles tid now dw =
        ({ status := 404, message := "Viaje no encontrado" }, db)) ∧
    (∀ driver v, db.drivers.find? (fun d => d.user_id == c) = some driver →
      driver.estado = EstadoConductor.disponible →
      db.trips.filter (activeFor c) = [] →
      db.trips.find? (fun t => t.id == tid) = some v →
      v.estado ≠ EstadoViaje.buscando →
      acceptTrip db c roles tid now dw =
        ({ status := 400,
           message := "Transición de estado no válida. El viaje debe estar en estado \x27buscando\x27." }, db)) := by
  have hmem : "conductor" ∈ roles := by simpa using hrole
  refine ⟨?_, ?_, ?_, ?_, ?_⟩
  · intro h1
    simp [acceptTrip, hrole, hmem, h1]
  · intro driver h1 h2
    simp [acceptTrip, hrole, hmem, h1, h2]
  · intro driver h1 h2 h3
    simp [acceptTrip, hrole, hmem, h1, h2, h3]
  · intro driver h1 h2 h3 h4
    simp [acceptTrip, hrole, hmem, h1, h2, h3, h4]
  · intro driver v h1 h2 h3 h4 h5
    simp [acceptTrip, hrole, hmem, h1, h2, h3, h4, h5]

/-- Witness for C4: in a store whose driver 5 is ocupado, acceptTrip fails the
second check with the actual availability in the message. -/
theorem trip_C4_witness :
    acceptTrip dbCancelledW 5 ["conductor"] 1 0 true =
      ({ status := 400,
         message := "El conductor no está disponible. Estado actual: " ++
           estadoConductorStr EstadoConductor.ocupado }, dbCancelledW) :=
  (trip_C4_accept_check_order dbCancelledW 5 ["conductor"] 1 0 true (by decide)).2.1
    { user_id := 5, estado := EstadoConductor.ocupado } (by decide) (by decide)

theorem mem_map_of_fix {l : List Trip} {t : Trip} (g : Trip → Trip) (ht : t ∈ l)
    (h : g t = t) : t ∈ l.map g := by
  have := List.mem_map_of_mem g ht
  rwa [h] at this

theorem terminal_untouched {db db' : DB} (h : Step db db')
    (hpw : db.trips.Pairwise fun a b => a.id ≠ b.id) :
    ∀ t ∈ db.trips,
      (t.estado = EstadoViaje.finalizado ∨ t.estado = EstadoViaje.cancelado) →
      t ∈ db'.trips := by
  intro t ht hterm
  have hbus : t.estado ≠ EstadoViaje.buscando := by
    rcases hterm with h' | h' <;> rw [h'] <;> intro hc <;> cases hc
  have hprog : t.estado ≠ EstadoViaje.enProgreso := by
    rcases hterm with h' | h' <;> rw [h'] <;> intro hc <;> cases hc
  have hasg : t.estado ≠ EstadoViaje.asignado := by
    rcases hterm with h' | h' <;> rw [h'] <;> intro hc <;> cases hc
  cases h with
  | request p now =>
      unfold requestTrip
      split
      · exact ht
      · split
        · exact ht
        · exact List.mem_append_left _ ht
  | accept c roles tid now dw =>
      unfold acceptTrip
      split
      · exact ht
      · split
        · exact ht
        · split
          · exact ht
          · split
            · exact ht
            · split
              · exact ht
              · split
                · exact ht
                · unfold acceptCommit condUpdate
                  have hb : (t.estado == EstadoViaje.buscando) = false := by
                    cases hbb : t.estado == EstadoViaje.buscando
                    · rfl
                    · exact absurd (eq_of_beq hbb) hbus
                  have hf : acceptFilter tid t = false := by
                    unfold acceptFilter
                    rw [hb, Bool.and_false]
                  cases hfind : db.trips.find? (acceptFilter tid) with
                  | none => exact ht
                  | some v =>
                      cases dw <;> simp only [Option.map_some] <;>
                        exact mem_map_of_fix _ ht (by rw [if_neg (by simp [hf])])
  | start c tid now =>
      unfold startTrip
      split
      · exact ht
      next v hv =>
        split
        · exact ht
        · split
          · exact ht
          next hvasg =>
            have hne : t.id ≠ tid := by
              intro hid
              have hveq := find_id_unique hpw hv t ht hid
              rw [← hveq] at hvasg
              exact hasg (not_not.mp hvasg)
            unfold startCommit condUpdate
            have hf : startFilter tid t = false := by
              unfold startFilter
              exact beq_eq_false_iff_ne.mpr hne
            cases hfind : db.trips.find? (startFilter tid) with
            | none => exact ht
            | some w =>
                simp only [Option.map_some]
                exact mem_map_of_fix _ ht (by rw [if_neg (by simp [hf])])
  | finish c tid now dw =>
      unfold finishTrip
      split
      · exact ht
      · split
        · exact ht
        · split
          · exact ht
          · unfold finishCommit condUpdate
            have hb : (t.estado == EstadoViaje.enProgreso) = false := by
              cases hbb : t.estado == EstadoViaje.enProgreso
              · rfl
              · exact absurd (eq_of_beq hbb) hprog
            have hf : finishFilter tid t = false := by
              unfold finishFilter
              rw [hb, Bool.and_false]
            cases hfind : db.trips.find? (finishFilter tid) with
            | none => exact ht
            | some v =>
                cases dw <;> simp only [Option.map_some] <;>
                  exact mem_map_of_fix _ ht (by rw [if_neg (by simp [hf])])
  | cancel u roles tid now dw =>
      unfold cancelTrip
      split
      · exact ht
      next v hv =>
        split
        · exact ht
        next hvfin =>
          split
          · exact ht
          next hvcan =>
            dsimp only
            split
            · exact ht
            · split
              · exact ht
              · split
                · exact ht
                · split
                  · exact ht
                  · have hne : t.id ≠ tid := by
                      intro hid
                      have hveq := find_id_unique hpw hv t ht hid
                      rcases hterm with h' | h'
                      · rw [hveq] at h'; exact hvfin h'
                      · rw [hveq] at h'; exact hvcan h'
                    unfold cancelCommit condUpdate
                    have hf : cancelFilter tid t = false := by
                      unfold cancelFilter
                      exact beq_eq_false_iff_ne.mpr hne
                    cases hfind : db.trips.find? (cancelFilter tid) with
                    | none => exact ht
                    | some w =>
                        cases hseen : v.conductor_id with
                        | none =>
                            simp only [Option.map_some, hseen]
                            exact mem_map_of_fix _ ht (by rw [if_neg (by simp [hf])])
                        | some cid =>
                            cases dw <;> simp only [Option.map_some, hseen] <;>
                              exact mem_map_of_fix _ ht (by rw [if_neg (by simp [hf])])
  | register u =>
      unfold registerDriver
      split
      · exact ht
      · exact ht
  | driverStatus u s =>
      unfold updateStatus
      split
      · exact ht
      · split
        · exact ht
        · exact ht

/-- Counterexample to C5: finishTrip on a Searching trip does NOT return
InvalidState (400) as the claim states — the identity guard runs before the
state guard and a Searching trip has no conductor_id, so every caller gets
Forbidden (403). -/
theorem trip_C5_cex :
    (finishTrip dbSearchingW 7 1 0 true).1.status = 403 ∧
    ¬(finishTrip dbSearchingW 7 1 0 true).1.status = 400 := by decide

/-- Claim C5 as amended: transitions outside the table are rejected with the
trip left unchanged, with the proviso that the identity guard precedes the
state guard: whenever the caller is not the recorded driver — in particular
on a driverless (e.g. Searching) trip, whose absent conductor_id matches no
caller — startTrip and finishTrip return Forbidden (403), so their
InvalidState (400) responses arise only for the recorded driver: finishTrip
by the recorded driver on a trip not in en_progreso returns InvalidState
(400), startTrip by the recorded driver on a trip not in asignado returns
InvalidState (400); cancelTrip on a finalizado or cancelado trip returns
InvalidState (400) for every caller; and finalizado/cancelado are terminal:
no operation ever changes such a row. -/
theorem trip_C5_amended (db db' : DB) (c u : UserId) (roles : List String)
    (tid : TripId) (now : Nat) (dw : Bool) (v t : Trip) :
    (db.trips.find? (fun s => s.id == tid) = some v →
      v.conductor_id ≠ some c →
      startTrip db c tid now =
        ({ status := 403, message := "Solo el conductor asignado puede iniciar este viaje" }, db)) ∧
    (db.trips.find? (fun s => s.id == tid) = some v →
      v.conductor_id ≠ some c →
      finishTrip db c tid now dw =
        ({ status := 403, message := "Solo el conductor asignado puede finalizar este viaje" }, db)) ∧
    (db.trips.find? (fun s => s.id == tid) = some v → v.conductor_id = some c →
      v.estado ≠ EstadoViaje.enProgreso →
      finishTrip db c tid now dw =
        ({ status := 400,
           message := "Transición de estado no válida. El viaje debe estar en estado \x27en_progreso\x27." }, db)) ∧
    (db.trips.find? (fun s => s.id == tid) = some v → v.conductor_id = some c →
      v.estado ≠ EstadoViaje.asignado →
      startTrip db c tid now =
        ({ status := 400,
           message := "Transición de estado no válida. El viaje debe estar en estado \x27asignado\x27." }, db)) ∧
    (db.trips.find? (fun s => s.id == tid) = some v →
      v.estado = EstadoViaje.finalizado →
      cancelTrip db u roles tid now dw =
        ({ status := 400, message := "No se puede cancelar un viaje finalizado" }, db)) ∧
    (db.trips.find? (fun s => s.id == tid) = some v →
      v.estado = EstadoViaje.cancelado →
      cancelTrip db u roles tid now dw =
        ({ status := 400, message := "El viaje ya está cancelado" }, db)) ∧
    (Step db db' → db.trips.Pairwise (fun a b => a.id ≠ b.id) → t ∈ db.trips →
      (t.estado = EstadoViaje.finalizado ∨ t.estado = EstadoViaje.cancelado) →
      t ∈ db'.trips) := by
  refine ⟨?_, ?_, ?_, ?_, ?_, ?_, ?_⟩
  · intro hv hne
    unfold startTrip
    rw [hv]
    dsimp only
    rw [if_pos hne]
  · intro hv hne
    unfold finishTrip
    rw [hv]
    dsimp only
    rw [if_pos hne]
  · intro hv hcond hne
    unfold finishTrip
    rw [hv]
    simp only [hcond]
    rw [if_neg (not_not_intro rfl), if_pos hne]
  · intro hv hcond hne
    unfold startTrip
    rw [hv]
    simp only [hcond]
    rw [if_neg (not_not_intro rfl), if_pos hne]
  · intro hv hfin
    unfold cancelTrip
    rw [hv]
    dsimp only
    rw [if_pos hfin]
  · intro hv hcan
    unfold cancelTrip
    rw [hv]
    dsimp only
    have hnf : v.estado ≠ EstadoViaje.finalizado := by
      rw [hcan]; intro hc; cases hc
    rw [if_neg hnf, if_pos hcan]
  · intro hstep hpw ht hterm
    exact terminal_untouched hstep hpw t ht hterm

/-- Witness for C5 (amended): startTrip on a Searching (driverless) trip
answers Forbidden for a concrete caller, the identity guard firing before the
state guard. -/
theorem trip_C5_witness :
    startTrip dbSearchingW 7 1 0 =
      ({ status := 403, message := "Solo el conductor asignado puede iniciar este viaje" },
       dbSearchingW) :=
  (trip_C5_amended dbSearchingW dbSearchingW 7 7 [] 1 0 true tripSearchingW
    tripSearchingW).1 (by decide) (by decide)

theorem finishCommit_fail (db : DB) (c : UserId) (tid : TripId) (n : Nat)
    (dw : Bool) (h : ∀ t ∈ db.trips, finishFilter tid t = false) :
    finishCommit db c tid n dw =
      ({ status := 404, message := "Viaje no encontrado" }, db) := by
  unfold finishCommit condUpdate
  have hnone : db.trips.find? (finishFilter tid) = none :=
    List.find?_eq_none.mpr fun t ht => by rw [h t ht]; exact Bool.false_ne_true
  simp [hnone]

/-- Counterexample to C6: a conditional trip-state update that affects zero
rows is NOT always reported as InvalidState — the zero-rows branch of finishTrip
returns 404 NotFound: here the finish write executes against a store whose
trip 1 was meanwhile cancelled. -/
theorem trip_C6_cex :
    (finishCommit dbCancelledW 5 1 0 true).1.status = 404 ∧
    ¬(finishCommit dbCancelledW 5 1 0 true).1.status = 400 := by decide

/-- Claim C6 as amended: a zero-rows conditional update is never retried and
leaves the store unchanged, and acceptTrip reports it as InvalidState (400,
"trip no longer available") — but finishTrip reports it as NotFound (404,
"Viaje no encontrado"), not InvalidState. -/
theorem trip_C6_amended (db : DB) (c : UserId) (tid : TripId) (now : Nat)
    (dw : Bool) :
    ((∀ t ∈ db.trips, acceptFilter tid t = false) →
      acceptCommit db c tid now dw = ({ status := 400, message := lostRaceMsg }, db)) ∧
    ((∀ t ∈ db.trips, finishFilter tid t = false) →
      finishCommit db c tid now dw =
        ({ status := 404, message := "Viaje no encontrado" }, db)) :=
  ⟨acceptCommit_fail db c tid now dw, finishCommit_fail db c tid now dw⟩

/-- Witness for C6 (amended): the lost-race branch of acceptTrip on a store whose
trip 1 is already cancelado. -/
theorem trip_C6_witness :
    acceptCommit dbCancelledW 5 1 0 true =
      ({ status := 400, message := lostRaceMsg }, dbCancelledW) :=
  (trip_C6_amended dbCancelledW 5 1 0 true).1 (by decide)

/-- Counterexample to C7: when the dependent driver-availability
write fails, the caller does NOT receive the same successful response — the
trip transition stays committed (identical trips table) but the response is
500 instead of 200. -/
theorem trip_C7_cex :
    (acceptCommit dbSearchingW 5 1 0 false).1.status = 500 ∧
    (acceptCommit dbSearchingW 5 1 0 true).1.status = 200 ∧
    (acceptCommit dbSearchingW 5 1 0 false).2.trips =
      (acceptCommit dbSearchingW 5 1 0 true).2.trips := by decide

/-- Claim C7 as amended: a failure of the dependent driver-availability write
never rolls back the committed trip transition (the trips table is exactly
the one of the successful run, the drivers table is untouched) in acceptTrip,
finishTrip and cancelTrip; only cancelTrip merely logs the failure and
answers with the unchanged successful response, while acceptTrip and
finishTrip surface 500 Internal. -/
theorem trip_C7_amended (db : DB) (c : UserId) (tid : TripId) (cb : String)
    (seen : Option UserId) (now : Nat) :
    ((acceptCommit db c tid now false).2.trips =
      (acceptCommit db c tid now true).2.trips) ∧
    ((acceptCommit db c tid now false).2.drivers = db.drivers) ∧
    (∀ v, db.trips.find? (acceptFilter tid) = some v →
      (acceptCommit db c tid now false).1.status = 500) ∧
    ((finishCommit db c tid now false).2.trips =
      (finishCommit db c tid now true).2.trips) ∧
    ((finishCommit db c tid now false).2.drivers = db.drivers) ∧
    (∀ v, db.trips.find? (finishFilter tid) = some v →
      (finishCommit db c tid now false).1.status = 500) ∧
    ((cancelCommit db tid cb seen now false).1 =
      (cancelCommit db tid cb seen now true).1) ∧
    ((cancelCommit db tid cb seen now false).2.trips =
      (cancelCommit db tid cb seen now true).2.trips) ∧
    ((cancelCommit db tid cb seen now false).2.drivers = db.drivers) := by
  refine ⟨?_, ?_, ?_, ?_, ?_, ?_, ?_, ?_, ?_⟩
  · unfold acceptCommit condUpdate
    cases hfind : db.trips.find? (acceptFilter tid) <;> rfl
  · unfold acceptCommit condUpdate
    cases hfind : db.trips.find? (acceptFilter tid) <;> rfl
  · intro v hfind
    unfold acceptCommit condUpdate
    rw [hfind]
    rfl
  · unfold finishCommit condUpdate
    cases hfind : db.trips.find? (finishFilter tid) <;> rfl
  · unfold finishCommit condUpdate
    cases hfind : db.trips.find? (finishFilter tid) <;> rfl
  · intro v hfind
    unfold finishCommit condUpdate
    rw [hfind]
    rfl
  · unfold cancelCommit condUpdate
    cases hfind : db.trips.find? (cancelFilter tid) <;> cases seen <;> rfl
  · unfold cancelCommit condUpdate
    cases hfind : db.trips.find? (cancelFilter tid) <;> cases seen <;> rfl
  · unfold cancelCommit condUpdate
    cases hfind : db.trips.find? (cancelFilter tid) <;> cases seen <;> rfl

/-- Witness for C7 (amended): the accept commit against the concrete Searching
store answers 500 when the driver write fails. -/
theorem trip_C7_witness :
    (acceptCommit dbSearchingW 5 1 0 false).1.status = 500 :=
  (trip_C7_amended dbSearchingW 5 1 "conductor" (some 5) 0).2.2.1
    tripSearchingW (by decide)

/-- Claim C8: for a trip whose recorded conductor_id is a driver d and any
caller different from d, startTrip and finishTrip answer 403 Forbidden with
the store unchanged, and cancelTrip on the trip while en_progreso answers 403
with the store unchanged whatever roles the caller presents. -/
theorem trip_C8_foreign_caller_forbidden (db : DB) (caller d : UserId)
    (roles : List String) (tid : TripId) (now : Nat) (dw : Bool) (v : Trip)
    (hv : db.trips.find? (fun t => t.id == tid) = some v)
    (hcond : v.conductor_id = some d) (hne : d ≠ caller) :
    (startTrip db caller tid now =
      ({ status := 403, message := "Solo el conductor asignado puede iniciar este viaje" }, db)) ∧
    (finishTrip db caller tid now dw =
      ({ status := 403, message := "Solo el conductor asignado puede finalizar este viaje" }, db)) ∧
    (v.estado = EstadoViaje.enProgreso →
      (cancelTrip db caller roles tid now dw).1.status = 403 ∧
      (cancelTrip db caller roles tid now dw).2 = db) := by
  have hneq : v.conductor_id ≠ some caller := by
    rw [hcond]
    intro hc
    injection hc with hc
    exact hne hc
  refine ⟨?_, ?_, ?_⟩
  · unfold startTrip
    rw [hv]
    dsimp only
    rw [if_pos hneq]
  · unfold finishTrip
    rw [hv]
    dsimp only
    rw [if_pos hneq]
  · intro hprog
    unfold cancelTrip
    rw [hv]
    dsimp only
    have hnf : v.estado ≠ EstadoViaje.finalizado := by
      rw [hprog]; intro hc; cases hc
    have hnc : v.estado ≠ EstadoViaje.cancelado := by
      rw [hprog]; intro hc; cases hc
    rw [if_neg hnf, if_neg hnc]
    have hec : (roles.contains "conductor" && v.conductor_id == some caller) = false := by
      rw [beq_eq_false_iff_ne.mpr hneq, Bool.and_false]
    by_cases hep : (roles.contains "pasajero" && v.pasajero_id == caller) = true
    · rw [if_neg (fun hand => by rw [hep] at hand; cases hand.1)]
      rw [if_pos ⟨hprog, hec⟩]
      exact ⟨rfl, rfl⟩
    · have hep' : (roles.contains "pasajero" && v.pasajero_id == caller) = false := by
        cases hh : roles.contains "pasajero" && v.pasajero_id == caller
        · rfl
        · exact absurd hh hep
      rw [if_pos ⟨hep', hec⟩]
      exact ⟨rfl, rfl⟩

/-- Witness for C8: caller 9 against the trip assigned to driver 5. -/
theorem trip_C8_witness :
    startTrip dbAssignedW 9 1 0 =
      ({ status := 403, message := "Solo el conductor asignado puede iniciar este viaje" },
       dbAssignedW) :=
  (trip_C8_foreign_caller_forbidden dbAssignedW 9 5 ["conductor"] 1 0 true
    tripAssignedW (by decide) (by decide) (by decide)).1

/-- Claim C9: requestTrip answers 409 Conflict when the passenger owns a trip
in buscando, asignado or en_progreso; otherwise 503 ServiceUnavailable when
no driver is disponible; otherwise it creates exactly one new buscando trip
without conductor_id and returns it with the first available driver as hint —
and in every case the drivers table is untouched. -/
theorem trip_C9_requestTrip (db : DB) (p : UserId) (now : Nat) :
    ((∃ t ∈ db.trips, activoPasajero p t = true) →
      requestTrip db p now = ({ status := 409, message := "Ya tienes un viaje activo" }, db)) ∧
    ((∀ t ∈ db.trips, activoPasajero p t = false) →
      (∀ d ∈ db.drivers, d.estado ≠ EstadoConductor.disponible) →
      requestTrip db p now = ({ status := 503, message := "No hay conductores disponibles" }, db)) ∧
    (∀ d0, (∀ t ∈ db.trips, activoPasajero p t = false) →
      (db.drivers.filter (fun d => d.estado == EstadoConductor.disponible)).head? = some d0 →
      requestTrip db p now =
        ({ status := 201, message := "Viaje creado, buscando conductor",
           data := some { id := db.nextTripId, pasajero_id := p,
                          estado := EstadoViaje.buscando, created_at := now },
           hint := some d0.user_id },
         { db with
             trips := db.trips ++
               [{ id := db.nextTripId, pasajero_id := p,
                  estado := EstadoViaje.buscando, created_at := now }],
             nextTripId := db.nextTripId + 1 })) ∧
    ((requestTrip db p now).2.drivers = db.drivers) := by
  refine ⟨?_, ?_, ?_, ?_⟩
  · rintro ⟨t, ht, hact⟩
    unfold requestTrip
    rw [if_pos (fun hnil => by rw [false_of_filter_nil hnil t ht] at hact; cases hact)]
  · intro h1 h2
    unfold requestTrip
    rw [if_neg (not_not_intro (filter_nil_of_false h1))]
    have hdn : db.drivers.filter (fun d => d.estado == EstadoConductor.disponible) = [] := by
      refine filter_nil_of_false ?_
      intro d hd
      cases hde : d.estado == EstadoConductor.disponible
      · rfl
      · exact absurd (eq_of_beq hde) (h2 d hd)
    rw [hdn]
    rfl
  · intro d0 h1 hd0
    unfold requestTrip
    rw [if_neg (not_not_intro (filter_nil_of_false h1))]
    rw [hd0]
  · unfold requestTrip
    split
    · rfl
    · split
      · rfl
      · rfl

/-- Witness for C9: with a registered disponible driver and no trips,
requestTrip creates the buscando trip and hints driver 5. -/
theorem trip_C9_witness :
    requestTrip dbRegW 7 0 =
      ({ status := 201, message := "Viaje creado, buscando conductor",
         data := some { id := 0, pasajero_id := 7,
                        estado := EstadoViaje.buscando, created_at := 0 },
         hint := some 5 },
       { dbRegW with
           trips := [{ id := 0, pasajero_id := 7,
                       estado := EstadoViaje.buscando, created_at := 0 }],
           nextTripId := 1 }) :=
  (trip_C9_requestTrip dbRegW 7 0).2.2.1
    { user_id := 5, estado := EstadoConductor.disponible } (by decide) (by decide)

/-- Claim C10: the store writes of startTrip and cancelTrip are filtered by
trip id only — they affect the row (and answer 200) whenever a row with that
id exists, whatever its state, so their state preconditions live only in the
preceding read — whereas the writes of acceptTrip and finishTrip additionally
require the expected state and affect zero rows when no row has both the id
and that state, even when the trip exists. -/
theorem trip_C10_commit_predicates (db : DB) (c : UserId) (tid : TripId)
    (cb : String) (seen : Option UserId) (now : Nat) (dw : Bool) :
    ((∃ t ∈ db.trips, t.id = tid) → (startCommit db tid now).1.status = 200) ∧
    ((∃ t ∈ db.trips, t.id = tid) →
      (cancelCommit db tid cb seen now dw).1.status = 200) ∧
    ((∀ t ∈ db.trips, ¬(t.id = tid ∧ t.estado = EstadoViaje.buscando)) →
      acceptCommit db c tid now dw = ({ status := 400, message := lostRaceMsg }, db)) ∧
    ((∀ t ∈ db.trips, ¬(t.id = tid ∧ t.estado = EstadoViaje.enProgreso)) →
      finishCommit db c tid now dw =
        ({ status := 404, message := "Viaje no encontrado" }, db)) := by
  refine ⟨?_, ?_, ?_, ?_⟩
  · rintro ⟨t, ht, htid⟩
    have hsome : (db.trips.find? (startFilter tid)).isSome :=
      List.find?_isSome.mpr ⟨t, ht, by simp [startFilter, htid]⟩
    obtain ⟨v, hfind⟩ := Option.isSome_iff_exists.mp hsome
    unfold startCommit condUpdate
    rw [hfind]
    rfl
  · rintro ⟨t, ht, htid⟩
    have hsome : (db.trips.find? (cancelFilter tid)).isSome :=
      List.find?_isSome.mpr ⟨t, ht, by simp [cancelFilter, htid]⟩
    obtain ⟨v, hfind⟩ := Option.isSome_iff_exists.mp hsome
    unfold cancelCommit condUpdate
    rw [hfind]
    cases seen <;> cases dw <;> rfl
  · intro h
    refine acceptCommit_fail db c tid now dw ?_
    intro t ht
    unfold acceptFilter
    by_cases hid : t.id = tid
    · have hb : t.estado ≠ EstadoViaje.buscando := fun hb => h t ht ⟨hid, hb⟩
      rw [beq_eq_false_iff_ne.mpr hb, Bool.and_false]
    · rw [beq_eq_false_iff_ne.mpr hid, Bool.false_and]
  · intro h
    refine finishCommit_fail db c tid now dw ?_
    intro t ht
    unfold finishFilter
    by_cases hid : t.id = tid
    · have hb : t.estado ≠ EstadoViaje.enProgreso := fun hb => h t ht ⟨hid, hb⟩
      rw [beq_eq_false_iff_ne.mpr hb, Bool.and_false]
    · rw [beq_eq_false_iff_ne.mpr hid, Bool.false_and]

/-- Witness for C10: the start write matches the row of a cancelado trip —
no state predicate in the write. -/
theorem trip_C10_witness : (startCommit dbCancelledW 1 0).1.status = 200 :=
  (trip_C10_commit_predicates dbCancelledW 5 1 "pasajero" none 0 true).1
    ⟨tripCancelledW, by decide, by decide⟩

end Mototaxi
